import Mathlib

/-!
Verification of the bulwark adaptive throttle (Go) against its
natural-language specification.  The Go sources are shallowly embedded:
pure logic becomes Lean functions, slice indexing that can panic returns
Option (none = panic), float64 arithmetic is modelled by rationals, the
random draw and the two clock samples are explicit parameters, and Go
error values are an inductive datatype rich enough to express wrapping
with errRejected and the default faults-based classifier.
-/

namespace Bulwark

/-- Priority (src/priority.go): a rank wrapping an int; rank 0 is the most
important.  Go declares the struct with a single int field. -/
structure Priority where
  p : ℤ
deriving DecidableEq, Repr

/-- High priority constant (src/priority.go, value 0). -/
def High : Priority := ⟨0⟩

/-- Important priority constant (src/priority.go, value 1). -/
def Important : Priority := ⟨1⟩

/-- Medium priority constant (src/priority.go, value 2). -/
def Medium : Priority := ⟨2⟩

/-- Low priority constant (src/priority.go, value 3). -/
def Low : Priority := ⟨3⟩

/-- PriorityRange (src/priority.go): the range [lowest, highest] of
priorities; NewPriorityRange fixes highest = High. -/
structure PriorityRange where
  lowest : Priority
  highest : Priority
deriving DecidableEq, Repr

/-- NewPriorityRange (src/priority.go): range [given lowest, High]. -/
def newPriorityRange (lowest : Priority) : PriorityRange :=
  { lowest := lowest, highest := High }

/-- OnInvalidPriorityPanic (src/validator.go): panics (modelled none) when
p.Value() >= priorities.Lowest().Value(); otherwise returns p. -/
def onInvalidPriorityPanic (p : Priority) (priorities : PriorityRange) :
    Option Priority :=
  if priorities.lowest.p ≤ p.p then none else some p

/-- OnInvalidPriorityAdjust (src/validator.go): returns p unchanged when
p.Value() <= priorities.Lowest().Value(); otherwise returns the lowest. -/
def onInvalidPriorityAdjust (p : Priority) (priorities : PriorityRange) :
    Priority :=
  if p.p ≤ priorities.lowest.p then p else priorities.lowest

/-- OnInvalidPriorityError (src/validator.go): returns (p, error) when
p.Value() > priorities.Lowest().Value(); the Bool is true when the
validation error is returned. -/
def onInvalidPriorityError (p : Priority) (priorities : PriorityRange) :
    Priority × Bool :=
  if priorities.lowest.p < p.p then (p, true) else (p, false)

/-- Go error values relevant to the throttle.  base is any plain error
(identified by an id standing for its allocation identity);
unavailableFault and resourceExhaustedFault are the two deixis/faults
categories recognised by DefaultRejectedError; rejectedNil is the zero
value errRejected{} and rejected wraps an inner error as
RejectedError(inner) does (src/adaptive.go errRejected). -/
inductive GoError where
  | base (id : ℕ)
  | unavailableFault (id : ℕ)
  | resourceExhaustedFault (id : ℕ)
  | rejectedNil
  | rejected (inner : GoError)
deriving DecidableEq, Repr

/-- errors.Is(err, errRejected{}) as evaluated by Go's errors.Is: true
exactly when the unwrap chain reaches the zero value errRejected{}.
errRejected has no Is method and only errRejected has Unwrap here, so the
walk succeeds only through rejected wrappers ending in rejectedNil. -/
def errorsIsRejectedMarker : GoError → Bool
  | .rejectedNil => true
  | .rejected inner => errorsIsRejectedMarker inner
  | _ => false

/-- err.(errRejected).inner (src/adaptive.go line 123): the inner error of
a top-level errRejected value; none models a nil inner error. -/
def unwrapRejected : GoError → Option GoError
  | .rejected inner => some inner
  | _ => none

/-- faults.IsUnavailable through the unwrap chain. -/
def isUnavailableFault : GoError → Bool
  | .unavailableFault _ => true
  | .rejected inner => isUnavailableFault inner
  | _ => false

/-- faults.IsResourceExhausted through the unwrap chain. -/
def isResourceExhaustedFault : GoError → Bool
  | .resourceExhaustedFault _ => true
  | .rejected inner => isResourceExhaustedFault inner
  | _ => false

/-- DefaultRejectedError (src/adaptive.go): unavailable or resource
exhausted faults count as rejections. -/
def defaultRejectedError (e : GoError) : Bool :=
  isUnavailableFault e || isResourceExhaustedFault e

/-- DefaultClientSideRejectionError (src/adaptive.go): the sentinel
faults.Unavailable(time.Second) returned on a client-side rejection. -/
def DefaultClientSideRejectionError : GoError := .unavailableFault 0

/-- Modelled from the spec: the windowedCounter implementation is not under
src/ (only its callers in src/adaptive.go are).  Per spec section 4.2 the
counter is constructed from a bucket width and a bucket count B and its
value at time t is the sum of increments attributed within the window
(t − B·width, t]; the history of add calls determines that sum. -/
structure windowedCounter where
  width : ℚ
  buckets : ℕ
  hist : List (ℚ × ℕ)
deriving DecidableEq, Repr

/-- Modelled from the spec: newWindowedCounter(now, width, buckets) starts
with no recorded increments. -/
def newWindowedCounter (_now width : ℚ) (buckets : ℕ) : windowedCounter :=
  { width := width, buckets := buckets, hist := [] }

/-- Modelled from the spec: add(t, n) attributes n increments to time t. -/
def counterAdd (c : windowedCounter) (t : ℚ) (n : ℕ) : windowedCounter :=
  { c with hist := c.hist ++ [(t, n)] }

/-- Modelled from the spec: get(t) returns the sum over all increments
whose attributed time lies within (t − B·width, t]. -/
def counterGet (c : windowedCounter) (t : ℚ) : ℕ :=
  ((c.hist.filter
      (fun en => decide (t - c.width * (c.buckets : ℚ) < en.1 ∧ en.1 ≤ t))).map
    (fun en => en.2)).sum

/-- AdaptiveThrottle state (src/adaptive.go): the k ratio, the
minPerWindow floor, and per-priority requests and accepts counters. -/
structure AdaptiveThrottle where
  k : ℚ
  minPerWindow : ℚ
  requests : List windowedCounter
  accepts : List windowedCounter
deriving DecidableEq, Repr

/-- NewAdaptiveThrottle (src/adaptive.go): priorities counter slots, each
a 10-bucket counter of width d/10; minPerWindow = minRate * d seconds.
The option structs are resolved to their payloads k, minRate, d. -/
def newAdaptiveThrottle (priorities : ℕ) (k minRate d : ℚ) (now : ℚ) :
    AdaptiveThrottle :=
  { k := k
    minPerWindow := minRate * d
    requests := List.replicate priorities (newWindowedCounter now (d / 10) 10)
    accepts := List.replicate priorities (newWindowedCounter now (d / 10) 10) }

/-- Go slice indexing s[i] with an int index: none models the
index-out-of-range panic. -/
def listGetZ (xs : List windowedCounter) (i : ℤ) : Option windowedCounter :=
  if 0 ≤ i then xs[i.toNat]? else none

/-- Go slice element update s[i] (mutating the element in place): none
models the index-out-of-range panic. -/
def listModifyZ (xs : List windowedCounter) (i : ℤ)
    (f : windowedCounter → windowedCounter) : Option (List windowedCounter) :=
  match listGetZ xs i with
  | some c => some (xs.set i.toNat (f c))
  | none => none

/-- Total read of the counter value at slot i (0 when out of range); used
only to state theorems, with in-range hypotheses where it matters. -/
def getCount (xs : List windowedCounter) (i : ℕ) (t : ℚ) : ℕ :=
  match xs[i]? with
  | some c => counterGet c t
  | none => 0

/-- clamp (src/adaptive.go): clamps x to [lo, hi]. -/
def clamp (lo x hi : ℚ) : ℚ :=
  if x < lo then lo else if x > hi then hi else x

/-- The loop of rejectionProbability (src/adaptive.go lines 154-158):
for i in [0, n) accumulate requests[i].get(now) - accepts[i].get(now),
an int subtraction; none models a panic (unreachable when the own-slot
reads succeeded). -/
def higherDelta (t : AdaptiveThrottle) (now : ℚ) : ℕ → Option ℤ
  | 0 => some 0
  | n + 1 =>
    match higherDelta t now n, t.requests[n]?, t.accepts[n]? with
    | some d, some rc, some ac =>
      some (d + ((counterGet rc now : ℤ) - (counterGet ac now : ℤ)))
    | _, _, _ => none

/-- rejectionProbability (src/adaptive.go lines 150-162): reads the own
slot of both counter arrays (panicking on an out-of-range priority), adds
the unaccepted higher-priority traffic to requests, and returns
clamp(0, (requests - k*accepts) / (requests + minPerWindow), 1). -/
def rejectionProbability (t : AdaptiveThrottle) (p : ℤ) (now : ℚ) :
    Option ℚ :=
  match listGetZ t.requests p, listGetZ t.accepts p,
      higherDelta t now p.toNat with
  | some rc, some ac, some d =>
    some (clamp 0
      ((((counterGet rc now : ℚ) + (d : ℚ)) - t.k * (counterGet ac now : ℚ)) /
        (((counterGet rc now : ℚ) + (d : ℚ)) + t.minPerWindow)) 1)
  | _, _, _ => none

/-- accept (src/adaptive.go lines 164-170): add 1 to both requests[p] and
accepts[p] at time now. -/
def acceptOp (t : AdaptiveThrottle) (p : ℤ) (now : ℚ) :
    Option AdaptiveThrottle :=
  match listModifyZ t.requests p (fun c => counterAdd c now 1),
      listModifyZ t.accepts p (fun c => counterAdd c now 1) with
  | some rs, some as0 => some { t with requests := rs, accepts := as0 }
  | _, _ => none

/-- reject (src/adaptive.go lines 172-177): add 1 to requests[p] only. -/
def rejectOp (t : AdaptiveThrottle) (p : ℤ) (now : ℚ) :
    Option AdaptiveThrottle :=
  match listModifyZ t.requests p (fun c => counterAdd c now 1) with
  | some rs => some { t with requests := rs }
  | none => none

/-- A context value: either a Priority or some unrelated value. -/
inductive CtxVal where
  | priority (p : Priority)
  | other (n : ℕ)
deriving DecidableEq, Repr

/-- A context is modelled as the chain of WithValue entries, most recent
first, each under an integer key. -/
def Ctx : Type := List (ℕ × CtxVal)

/-- The private key under which the priority is stored
(src/README.md context carrier: activePriorityKey). -/
def activePriorityKey : ℕ := 0

/-- WithPriority (src/README.md carrier code): derive a context with the
priority bound under activePriorityKey. -/
def withPriority (ctx : Ctx) (priority : Priority) : Ctx :=
  (activePriorityKey, CtxVal.priority priority) :: ctx

/-- PriorityFromContext (src/README.md carrier code): the Priority bound
under activePriorityKey, or the default when absent or not a Priority. -/
def priorityFromContext (ctx : Ctx) (defaultPriority : Priority) : Priority :=
  match List.find? (fun en => en.1 == activePriorityKey) ctx with
  | some (_, CtxVal.priority p) => p
  | _ => defaultPriority

/-- The observable outcome of one Throttle method call: the next throttle
state, the returned error (none = nil), and whether the work function and
the fallback were invoked. -/
structure ThrottleOutcome where
  state : AdaptiveThrottle
  err : Option GoError
  workInvoked : Bool
  fallbackInvoked : Bool
deriving DecidableEq, Repr

/-- The Throttle method (src/adaptive.go lines 93-133).  cls is the
process-global IsRejectedError classifier; u is the rand.Float64() draw;
t0 and t1 are the two Now() samples; workErr is what the throttled
function returns when invoked; fallbackFn lists what each supplied
fallback would return.  none models a panic. -/
def throttleGo (cls : GoError → Bool) (t : AdaptiveThrottle) (ctx : Ctx)
    (defaultPriority : Priority) (u t0 t1 : ℚ) (workErr : Option GoError)
    (fallbackFn : List (Option GoError)) : Option ThrottleOutcome :=
  let priority := priorityFromContext ctx defaultPriority
  match rejectionProbability t priority.p t0 with
  | none => none
  | some prob =>
    if u < prob then
      match rejectOp t priority.p t0 with
      | none => none
      | some t' =>
        match fallbackFn with
        | fb :: _ => some ⟨t', fb, false, true⟩
        | [] => some ⟨t', some DefaultClientSideRejectionError, false, false⟩
    else
      match workErr with
      | none =>
        match acceptOp t priority.p t1 with
        | none => none
        | some t' => some ⟨t', none, true, false⟩
      | some e =>
        if errorsIsRejectedMarker e then
          match rejectOp t priority.p t1 with
          | none => none
          | some t' => some ⟨t', unwrapRejected e, true, false⟩
        else if cls e then
          match rejectOp t priority.p t1 with
          | none => none
          | some t' => some ⟨t', some e, true, false⟩
        else
          match acceptOp t priority.p t1 with
          | none => none
          | some t' => some ⟨t', some e, true, false⟩

/-- The observable outcome of one generic Throttle[T] call: additionally
carries the returned value of type α. -/
structure ThrottleOutcomeT (α : Type) where
  state : AdaptiveThrottle
  value : α
  err : Option GoError
  workInvoked : Bool
  fallbackInvoked : Bool

/-- The generic Throttle[T] helper (src/adaptive.go lines 233-278).  zero
is the zero value of T; workRes is the (value, error) pair the throttled
function returns when invoked; fallbackFn lists the pairs each supplied
fallback would return. -/
def throttleGoT {α : Type} (cls : GoError → Bool) (t : AdaptiveThrottle)
    (ctx : Ctx) (defaultPriority : Priority) (u t0 t1 : ℚ) (zero : α)
    (workRes : α × Option GoError) (fallbackFn : List (α × Option GoError)) :
    Option (ThrottleOutcomeT α) :=
  let priority := priorityFromContext ctx defaultPriority
  match rejectionProbability t priority.p t0 with
  | none => none
  | some prob =>
    if u < prob then
      match rejectOp t priority.p t0 with
      | none => none
      | some t' =>
        match fallbackFn with
        | fb :: _ => some ⟨t', fb.1, fb.2, false, true⟩
        | [] =>
          some ⟨t', zero, some DefaultClientSideRejectionError, false, false⟩
    else
      match workRes.2 with
      | none =>
        match acceptOp t priority.p t1 with
        | none => none
        | some t' => some ⟨t', workRes.1, none, true, false⟩
      | some e =>
        if errorsIsRejectedMarker e then
          match rejectOp t priority.p t1 with
          | none => none
          | some t' => some ⟨t', workRes.1, unwrapRejected e, true, false⟩
        else if cls e then
          match rejectOp t priority.p t1 with
          | none => none
          | some t' => some ⟨t', workRes.1, some e, true, false⟩
        else
          match acceptOp t priority.p t1 with
          | none => none
          | some t' => some ⟨t', workRes.1, some e, true, false⟩

/-- Forget the value component of a generic throttle outcome. -/
def forgetValue {α : Type} (o : ThrottleOutcomeT α) : ThrottleOutcome :=
  ⟨o.state, o.err, o.workInvoked, o.fallbackInvoked⟩

/-- The inputs of one Throttle method call, used to describe reachable
throttle states. -/
structure CallDesc where
  ctx : Ctx
  dp : Priority
  u : ℚ
  t0 : ℚ
  t1 : ℚ
  workErr : Option GoError
  fallbacks : List (Option GoError)

/-- Run a sequence of Throttle method calls from a starting state; none
when some call panics. -/
def runCalls (cls : GoError → Bool) (t : AdaptiveThrottle) :
    List CallDesc → Option AdaptiveThrottle
  | [] => some t
  | c :: cs =>
    match throttleGo cls t c.ctx c.dp c.u c.t0 c.t1 c.workErr c.fallbacks with
    | some out => runCalls cls out.state cs
    | none => none

/-- The accepts counter of a slot is dominated by the requests counter:
same window parameters and a sub-history. -/
def CounterDominates (a r : windowedCounter) : Prop :=
  a.width = r.width ∧ a.buckets = r.buckets ∧ a.hist.Sublist r.hist

/-- Throttle-state invariant: equally many slots, and slotwise the accepts
counter is dominated by the requests counter. -/
def ThrottleInv (t : AdaptiveThrottle) : Prop :=
  t.accepts.length = t.requests.length ∧
  ∀ i (h1 : i < t.accepts.length) (h2 : i < t.requests.length),
    CounterDominates t.accepts[i] t.requests[i]


/-- The counter state of a fresh 60-second-window slot. -/
def freshCtr : windowedCounter := { width := 6, buckets := 10, hist := [] }

/-- A slot counter holding one increment at time 0. -/
def oneCtr : windowedCounter := { width := 6, buckets := 10, hist := [(0, 1)] }

/-- A slot counter holding two increments at time 0. -/
def twoCtr : windowedCounter :=
  { width := 6, buckets := 10, hist := [(0, 1), (0, 1)] }

/-- A two-slot throttle with no traffic. -/
def quietThrottle : AdaptiveThrottle :=
  { k := 2
    minPerWindow := 60
    requests := [freshCtr, freshCtr]
    accepts := [freshCtr, freshCtr] }

/-- A two-slot throttle with one unaccepted rank-0 request. -/
def pressedThrottle : AdaptiveThrottle :=
  { k := 2
    minPerWindow := 60
    requests := [oneCtr, freshCtr]
    accepts := [freshCtr, freshCtr] }

/-- A one-slot throttle with k = 1, no probe floor, and one fully
unaccepted request: its rejection probability is 1. -/
def failingThrottle : AdaptiveThrottle :=
  { k := 1
    minPerWindow := 0
    requests := [oneCtr]
    accepts := [freshCtr] }

/-- failingThrottle after one more locally rejected request at time 0. -/
def failingAfterReject : AdaptiveThrottle :=
  { k := 1
    minPerWindow := 0
    requests := [twoCtr]
    accepts := [freshCtr] }

/-- The state reached from a fresh 4-slot throttle after one call accepted
at rank 0 at time 0. -/
def c2State : AdaptiveThrottle :=
  { k := 2
    minPerWindow := 60
    requests := [oneCtr, freshCtr, freshCtr, freshCtr]
    accepts := [oneCtr, freshCtr, freshCtr, freshCtr] }

/-- The state reached from a fresh 4-slot throttle after one accepted call
and one rejected call at rank 0, both at time 0. -/
def c6State : AdaptiveThrottle :=
  { k := 2
    minPerWindow := 60
    requests := [twoCtr, freshCtr, freshCtr, freshCtr]
    accepts := [oneCtr, freshCtr, freshCtr, freshCtr] }

/-! ## Helper lemmas -/

lemma getCount_of_getElem? {xs : List windowedCounter} {i : ℕ}
    {c : windowedCounter} (h : xs[i]? = some c) (t : ℚ) :
    getCount xs i t = counterGet c t := by
  simp [getCount, h]

lemma higherDelta_eq (t : AdaptiveThrottle) (now : ℚ) :
    ∀ n, n ≤ t.requests.length → n ≤ t.accepts.length →
    higherDelta t now n =
      some (∑ i in Finset.range n,
        ((getCount t.requests i now : ℤ) - (getCount t.accepts i now : ℤ))) := by
  intro n
  induction n with
  | zero => intro _ _; simp [higherDelta]
  | succ m ih =>
    intro h1 h2
    have hm1 : m < t.requests.length := Nat.lt_of_lt_of_le (Nat.lt_succ_self m) h1
    have hm2 : m < t.accepts.length := Nat.lt_of_lt_of_le (Nat.lt_succ_self m) h2
    have e1 : t.requests[m]? = some t.requests[m] := List.getElem?_eq_getElem hm1
    have e2 : t.accepts[m]? = some t.accepts[m] := List.getElem?_eq_getElem hm2
    rw [higherDelta, ih (Nat.le_of_lt hm1) (Nat.le_of_lt hm2)]
    simp [e1, e2, Finset.sum_range_succ, getCount_of_getElem? e1,
      getCount_of_getElem? e2]
    ring

/-- Shared closed form of rejectionProbability: the loop summed into a
Finset.range sum. -/
lemma rejectionProbability_closed (t : AdaptiveThrottle) (p : ℤ) (now : ℚ)
    (h0 : 0 ≤ p) (h1 : p.toNat < t.requests.length)
    (h2 : p.toNat < t.accepts.length) :
    rejectionProbability t p now =
      some (clamp 0
        ((((getCount t.requests p.toNat now : ℚ) +
            ((∑ i in Finset.range p.toNat,
              ((getCount t.requests i now : ℤ) -
               (getCount t.accepts i now : ℤ))) : ℤ)) -
          t.k * (getCount t.accepts p.toNat now : ℚ)) /
          (((getCount t.requests p.toNat now : ℚ) +
            ((∑ i in Finset.range p.toNat,
              ((getCount t.requests i now : ℤ) -
               (getCount t.accepts i now : ℤ))) : ℤ)) + t.minPerWindow)) 1) := by
  have e1 : t.requests[p.toNat]? = some t.requests[p.toNat] :=
    List.getElem?_eq_getElem h1
  have e2 : t.accepts[p.toNat]? = some t.accepts[p.toNat] :=
    List.getElem?_eq_getElem h2
  rw [rejectionProbability, listGetZ, listGetZ, if_pos h0, if_pos h0, e1, e2,
    higherDelta_eq t now p.toNat (Nat.le_of_lt h1) (Nat.le_of_lt h2)]
  simp [getCount_of_getElem? e1, getCount_of_getElem? e2]

lemma clamp_nonneg (x : ℚ) : 0 ≤ clamp 0 x 1 := by
  unfold clamp
  split_ifs <;> linarith

lemma clamp_mono {x y : ℚ} (h : x ≤ y) : clamp 0 x 1 ≤ clamp 0 y 1 := by
  unfold clamp
  split_ifs <;> linarith

/-- Core monotonicity of the rejection formula in the higher-priority
pressure term. -/
lemma formula_mono (k m r a d1 d2 : ℚ) (hk : 0 ≤ k) (hm : 0 ≤ m)
    (hr : 0 ≤ r) (ha : 0 ≤ a) (hd1 : 0 ≤ d1) (h12 : d1 ≤ d2) :
    clamp 0 ((r + d1 - k * a) / (r + d1 + m)) 1 ≤
      clamp 0 ((r + d2 - k * a) / (r + d2 + m)) 1 := by
  rcases eq_or_lt_of_le (by linarith : (0:ℚ) ≤ r + d1 + m) with hz | hpos
  · rw [← hz]
    rw [div_zero]
    calc clamp 0 0 1 = 0 := by unfold clamp; norm_num
    _ ≤ clamp 0 ((r + d2 - k * a) / (r + d2 + m)) 1 := clamp_nonneg _
  · have hpos2 : (0:ℚ) < r + d2 + m := by linarith
    apply clamp_mono
    rw [div_le_div_iff₀ hpos hpos2]
    nlinarith [mul_nonneg (add_nonneg hm (mul_nonneg hk ha))
      (sub_nonneg.2 h12)]

lemma counterGet_le_of_dominates {a r : windowedCounter}
    (h : CounterDominates a r) (t : ℚ) : counterGet a t ≤ counterGet r t := by
  obtain ⟨hw, hb, hs⟩ := h
  unfold counterGet
  rw [hw, hb]
  exact List.Sublist.sum_le_sum ((hs.filter _).map _)
    (by intro a _; exact Nat.zero_le a)

lemma throttleInv_new (priorities : ℕ) (k minRate d now : ℚ) :
    ThrottleInv (newAdaptiveThrottle priorities k minRate d now) := by
  constructor
  · simp [newAdaptiveThrottle]
  · intro i h1 h2
    simp only [newAdaptiveThrottle, List.getElem_replicate]
    exact ⟨rfl, rfl, List.Sublist.refl _⟩

lemma listModifyZ_eq_some {xs : List windowedCounter} {i : ℤ}
    {f : windowedCounter → windowedCounter} {ys : List windowedCounter} :
    listModifyZ xs i f = some ys ↔
      0 ≤ i ∧ ∃ hl : i.toNat < xs.length, ys = xs.set i.toNat (f xs[i.toNat]) := by
  unfold listModifyZ listGetZ
  split_ifs with hp
  · cases hg : xs[i.toNat]? with
    | none =>
      simp only [hg]
      constructor
      · intro h; cases h
      · rintro ⟨hp', hl, hy⟩
        rw [List.getElem?_eq_getElem hl] at hg
        cases hg
    | some c =>
      have hl : i.toNat < xs.length := by
        by_contra hge
        rw [List.getElem?_eq_none (Nat.le_of_not_lt hge)] at hg
        cases hg
      have hc : c = xs[i.toNat] := by
        have h2 := (List.getElem?_eq_getElem hl).symm.trans hg
        exact Option.some.inj h2.symm
      simp only [hg, Option.some.injEq]
      constructor
      · intro h; exact ⟨hp, hl, by rw [← h, hc]⟩
      · rintro ⟨hp', hl', hy⟩; rw [hy, hc]
  · constructor
    · intro h; cases h
    · rintro ⟨hp', hl', hy⟩; exact absurd hp' hp

lemma rejectOp_eq_some {t : AdaptiveThrottle} {p : ℤ} {now : ℚ}
    {t' : AdaptiveThrottle} :
    rejectOp t p now = some t' ↔
      0 ≤ p ∧ ∃ hl : p.toNat < t.requests.length,
        t' = { t with requests :=
          t.requests.set p.toNat (counterAdd t.requests[p.toNat] now 1) } := by
  unfold rejectOp
  cases hm : listModifyZ t.requests p (fun c => counterAdd c now 1) with
  | none =>
    simp only
    constructor
    · intro h; cases h
    · rintro ⟨hp, hl, ht⟩
      rw [(listModifyZ_eq_some).2 ⟨hp, hl, rfl⟩] at hm
      cases hm
  | some rs =>
    obtain ⟨hp, hl, hrs⟩ := (listModifyZ_eq_some).1 hm
    simp only [Option.some.injEq]
    constructor
    · intro h; exact ⟨hp, hl, by rw [← h, hrs]⟩
    · rintro ⟨hp', hl', ht⟩; rw [ht, hrs]


lemma acceptOp_eq_some {t : AdaptiveThrottle} {p : ℤ} {now : ℚ}
    {t' : AdaptiveThrottle} :
    acceptOp t p now = some t' ↔
      0 ≤ p ∧ ∃ hl : p.toNat < t.requests.length,
        ∃ hl2 : p.toNat < t.accepts.length,
        t' = { t with
          requests :=
            t.requests.set p.toNat (counterAdd t.requests[p.toNat] now 1),
          accepts :=
            t.accepts.set p.toNat (counterAdd t.accepts[p.toNat] now 1) } := by
  unfold acceptOp
  cases hm1 : listModifyZ t.requests p (fun c => counterAdd c now 1) with
  | none =>
    simp only
    constructor
    · intro h; cases h
    · rintro ⟨hp, hl, hl2, ht⟩
      rw [(listModifyZ_eq_some).2 ⟨hp, hl, rfl⟩] at hm1
      cases hm1
  | some rs =>
    obtain ⟨hp, hl, hrs⟩ := (listModifyZ_eq_some).1 hm1
    cases hm2 : listModifyZ t.accepts p (fun c => counterAdd c now 1) with
    | none =>
      simp only
      constructor
      · intro h; cases h
      · rintro ⟨hp', hl', hl2, ht⟩
        rw [(listModifyZ_eq_some).2 ⟨hp', hl2, rfl⟩] at hm2
        cases hm2
    | some as0 =>
      obtain ⟨hp2, hl2, has⟩ := (listModifyZ_eq_some).1 hm2
      simp only [Option.some.injEq]
      constructor
      · intro h; exact ⟨hp, hl, hl2, by rw [← h, hrs, has]⟩
      · rintro ⟨hp', hl', hl2', ht⟩; rw [ht, hrs, has]

lemma counterAdd_dominates_left {a r : windowedCounter} (t : ℚ) (n : ℕ)
    (h : CounterDominates a r) : CounterDominates a (counterAdd r t n) := by
  obtain ⟨hw, hb, hs⟩ := h
  exact ⟨hw, hb, hs.trans (List.sublist_append_left _ _)⟩

lemma counterAdd_dominates_both {a r : windowedCounter} (t : ℚ) (n : ℕ)
    (h : CounterDominates a r) :
    CounterDominates (counterAdd a t n) (counterAdd r t n) := by
  obtain ⟨hw, hb, hs⟩ := h
  exact ⟨hw, hb, hs.append (List.Sublist.refl _)⟩

lemma throttleInv_rejectOp {t t' : AdaptiveThrottle} {p : ℤ} {now : ℚ}
    (inv : ThrottleInv t) (h : rejectOp t p now = some t') :
    ThrottleInv t' := by
  obtain ⟨hp, hl, ht⟩ := rejectOp_eq_some.1 h
  obtain ⟨hlen, hdom⟩ := inv
  subst ht
  refine ⟨by simpa using hlen, ?_⟩
  intro i h1 h2
  simp only [List.length_set] at h2
  by_cases hip : i = p.toNat
  · subst hip
    rw [List.getElem_set_self]
    exact counterAdd_dominates_left _ _ (hdom p.toNat h1 hl)
  · rw [List.getElem_set_ne (by omega)]
    exact hdom i h1 h2

lemma throttleInv_acceptOp {t t' : AdaptiveThrottle} {p : ℤ} {now : ℚ}
    (inv : ThrottleInv t) (h : acceptOp t p now = some t') :
    ThrottleInv t' := by
  obtain ⟨hp, hl, hl2, ht⟩ := acceptOp_eq_some.1 h
  obtain ⟨hlen, hdom⟩ := inv
  subst ht
  refine ⟨by simpa using hlen, ?_⟩
  intro i h1 h2
  simp only [List.length_set] at h1 h2
  by_cases hip : i = p.toNat
  · subst hip
    rw [List.getElem_set_self, List.getElem_set_self]
    exact counterAdd_dominates_both _ _ (hdom p.toNat hl2 hl)
  · rw [List.getElem_set_ne (by omega), List.getElem_set_ne (by omega)]
    exact hdom i h1 h2

lemma throttleInv_throttleGo {cls : GoError → Bool} {t : AdaptiveThrottle}
    {ctx : Ctx} {dp : Priority} {u t0 t1 : ℚ} {we : Option GoError}
    {fbs : List (Option GoError)} {out : ThrottleOutcome}
    (inv : ThrottleInv t)
    (h : throttleGo cls t ctx dp u t0 t1 we fbs = some out) :
    ThrottleInv out.state := by
  simp only [throttleGo] at h
  cases hP : rejectionProbability t (priorityFromContext ctx dp).p t0 with
  | none => rw [hP] at h; cases h
  | some prob =>
    rw [hP] at h
    simp only at h
    by_cases hu : u < prob
    · rw [if_pos hu] at h
      cases hr : rejectOp t (priorityFromContext ctx dp).p t0 with
      | none => rw [hr] at h; cases h
      | some t' =>
        rw [hr] at h
        have hinv' := throttleInv_rejectOp inv hr
        cases fbs with
        | nil => cases h; exact hinv'
        | cons fb l => cases h; exact hinv'
    · rw [if_neg hu] at h
      cases we with
      | none =>
        cases ha : acceptOp t (priorityFromContext ctx dp).p t1 with
        | none => rw [ha] at h; cases h
        | some t' => rw [ha] at h; cases h; exact throttleInv_acceptOp inv ha
      | some e =>
        simp only at h
        by_cases hmk : errorsIsRejectedMarker e
        · rw [if_pos hmk] at h
          cases hr : rejectOp t (priorityFromContext ctx dp).p t1 with
          | none => rw [hr] at h; cases h
          | some t' => rw [hr] at h; cases h; exact throttleInv_rejectOp inv hr
        · rw [if_neg hmk] at h
          by_cases hcls : cls e
          · rw [if_pos hcls] at h
            cases hr : rejectOp t (priorityFromContext ctx dp).p t1 with
            | none => rw [hr] at h; cases h
            | some t' =>
              rw [hr] at h; cases h; exact throttleInv_rejectOp inv hr
          · rw [if_neg hcls] at h
            cases ha : acceptOp t (priorityFromContext ctx dp).p t1 with
            | none => rw [ha] at h; cases h
            | some t' =>
              rw [ha] at h; cases h; exact throttleInv_acceptOp inv ha

lemma throttleInv_runCalls {cls : GoError → Bool} :
    ∀ (calls : List CallDesc) (t t' : AdaptiveThrottle), ThrottleInv t →
    runCalls cls t calls = some t' → ThrottleInv t' := by
  intro calls
  induction calls with
  | nil => intro t t' inv h; cases h; exact inv
  | cons c cs ih =>
    intro t t' inv h
    unfold runCalls at h
    cases hg : throttleGo cls t c.ctx c.dp c.u c.t0 c.t1 c.workErr c.fallbacks with
    | none => rw [hg] at h; cases h
    | some out =>
      rw [hg] at h
      exact ih out.state t' (throttleInv_throttleGo inv hg) h


lemma rejectionProbability_none_of_out_of_range {t : AdaptiveThrottle}
    {p : ℤ} (now : ℚ) (h : p < 0 ∨ (t.requests.length : ℤ) ≤ p) :
    rejectionProbability t p now = none := by
  have hget : listGetZ t.requests p = none := by
    unfold listGetZ
    rcases h with h | h
    · rw [if_neg (by omega)]
    · rw [if_pos (by omega)]
      exact List.getElem?_eq_none (by omega)
  cases h2 : listGetZ t.accepts p <;> cases h3 : higherDelta t now p.toNat <;>
    simp only [rejectionProbability, hget, h2, h3]

/-! ## Claim theorems -/

/-- C1: for every priority rank p and time t, rejectionProbability(p, t)
returns clamp((R − k·A) / (R + minPerWindow), 0, 1), where A is the
own-priority accepts count and R is the own-priority requests count plus
the sum over every more-important rank i < p of
requests[i].get(t) − accepts[i].get(t); only the own-priority accepts are
multiplied by k, and the higher-priority unaccepted delta enters R in both
numerator and denominator. -/
theorem claim_C1_rejection_probability_formula (t : AdaptiveThrottle)
    (p : ℤ) (now : ℚ) (h0 : 0 ≤ p) (h1 : p.toNat < t.requests.length)
    (h2 : p.toNat < t.accepts.length) :
    rejectionProbability t p now =
      some (clamp 0
        ((((getCount t.requests p.toNat now : ℚ) +
            ((∑ i in Finset.range p.toNat,
              ((getCount t.requests i now : ℤ) -
               (getCount t.accepts i now : ℤ))) : ℤ)) -
          t.k * (getCount t.accepts p.toNat now : ℚ)) /
          (((getCount t.requests p.toNat now : ℚ) +
            ((∑ i in Finset.range p.toNat,
              ((getCount t.requests i now : ℤ) -
               (getCount t.accepts i now : ℤ))) : ℤ)) + t.minPerWindow)) 1) :=
  rejectionProbability_closed t p now h0 h1 h2

/-- Witness for C1: on a fresh 4-slot throttle at rank 2 the formula
evaluates to probability 0. -/
theorem claim_C1_witness :
    (0:ℤ) ≤ 2 ∧ (2:ℤ).toNat < (newAdaptiveThrottle 4 2 1 60 0).requests.length ∧
    rejectionProbability (newAdaptiveThrottle 4 2 1 60 0) 2 0 = some 0 := by
  refine ⟨by decide, by decide, ?_⟩
  rw [claim_C1_rejection_probability_formula (newAdaptiveThrottle 4 2 1 60 0) 2 0
    (by decide) (by decide) (by decide)]
  have ht : (2:ℤ).toNat = 2 := rfl
  rw [ht]
  simp only [Finset.sum_range_succ, Finset.sum_range_zero]
  norm_num [show getCount (newAdaptiveThrottle 4 2 1 60 0).requests 0 0 = 0 from by decide,
    show getCount (newAdaptiveThrottle 4 2 1 60 0).requests 1 0 = 0 from by decide,
    show getCount (newAdaptiveThrottle 4 2 1 60 0).requests 2 0 = 0 from by decide,
    show getCount (newAdaptiveThrottle 4 2 1 60 0).accepts 0 0 = 0 from by decide,
    show getCount (newAdaptiveThrottle 4 2 1 60 0).accepts 1 0 = 0 from by decide,
    show getCount (newAdaptiveThrottle 4 2 1 60 0).accepts 2 0 = 0 from by decide,
    show (newAdaptiveThrottle 4 2 1 60 0).k = 2 from rfl,
    show (newAdaptiveThrottle 4 2 1 60 0).minPerWindow = 1 * 60 from rfl,
    clamp]

/-- C7: with the own-priority counts, k ≥ 0 and minPerWindow ≥ 0 held
fixed, the rejection probability at rank p is non-decreasing in the total
unaccepted higher-priority traffic D = Σ over ranks i < p of
requests[i] − accepts[i], for D ≥ 0. -/
theorem claim_C7_monotone_in_higher_priority_pressure
    (ta tb : AdaptiveThrottle) (p : ℤ) (now : ℚ) (qa qb : ℚ)
    (h0 : 0 ≤ p)
    (hla : p.toNat < ta.requests.length) (hlb : p.toNat < ta.accepts.length)
    (hlc : p.toNat < tb.requests.length) (hld : p.toNat < tb.accepts.length)
    (hkeq : ta.k = tb.k) (hk0 : 0 ≤ ta.k)
    (hmeq : ta.minPerWindow = tb.minPerWindow) (hm0 : 0 ≤ ta.minPerWindow)
    (hreq : getCount ta.requests p.toNat now = getCount tb.requests p.toNat now)
    (hacc : getCount ta.accepts p.toNat now = getCount tb.accepts p.toNat now)
    (hd0 : 0 ≤ ∑ i in Finset.range p.toNat,
      ((getCount ta.requests i now : ℤ) - (getCount ta.accepts i now : ℤ)))
    (hdle : (∑ i in Finset.range p.toNat,
        ((getCount ta.requests i now : ℤ) - (getCount ta.accepts i now : ℤ))) ≤
      ∑ i in Finset.range p.toNat,
        ((getCount tb.requests i now : ℤ) - (getCount tb.accepts i now : ℤ)))
    (ea : rejectionProbability ta p now = some qa)
    (eb : rejectionProbability tb p now = some qb) :
    qa ≤ qb := by
  rw [rejectionProbability_closed ta p now h0 hla hlb] at ea
  rw [rejectionProbability_closed tb p now h0 hlc hld] at eb
  rw [← Option.some.inj ea, ← Option.some.inj eb, hreq, hacc, hkeq, hmeq]
  exact formula_mono tb.k tb.minPerWindow _ _ _ _
    (hkeq ▸ hk0) (hmeq ▸ hm0) (Nat.cast_nonneg _) (Nat.cast_nonneg _)
    (by exact_mod_cast hd0) (by exact_mod_cast hdle)

/-- Witness for C7: at rank 1 with identical own-priority counts, one
unaccepted rank-0 request raises the probability from 0 to 1/61. -/
theorem claim_C7_witness :
    rejectionProbability quietThrottle 1 0 = some 0 ∧
    rejectionProbability pressedThrottle 1 0 = some (1/61) ∧
    (0:ℚ) ≤ 1/61 := by
  have ht : (1:ℤ).toNat = 1 := rfl
  have ea : rejectionProbability quietThrottle 1 0 = some 0 := by
    rw [rejectionProbability_closed quietThrottle 1 0 (by decide) (by decide)
      (by decide), ht]
    simp only [Finset.sum_range_succ, Finset.sum_range_zero]
    norm_num [show getCount quietThrottle.requests 1 0 = 0 from by decide,
      show getCount quietThrottle.requests 0 0 = 0 from by decide,
      show getCount quietThrottle.accepts 1 0 = 0 from by decide,
      show getCount quietThrottle.accepts 0 0 = 0 from by decide,
      show quietThrottle.k = 2 from rfl,
      show quietThrottle.minPerWindow = 60 from rfl, clamp]
  have hone : getCount pressedThrottle.requests 0 0 = 1 := by
    norm_num [getCount, pressedThrottle, oneCtr, counterGet]
  have eb : rejectionProbability pressedThrottle 1 0 = some (1/61) := by
    rw [rejectionProbability_closed pressedThrottle 1 0 (by decide) (by decide)
      (by decide), ht]
    simp only [Finset.sum_range_succ, Finset.sum_range_zero]
    norm_num [hone,
      show getCount pressedThrottle.requests 1 0 = 0 from by decide,
      show getCount pressedThrottle.accepts 1 0 = 0 from by decide,
      show getCount pressedThrottle.accepts 0 0 = 0 from by decide,
      show pressedThrottle.k = 2 from rfl,
      show pressedThrottle.minPerWindow = 60 from rfl, clamp]
  refine ⟨ea, eb, ?_⟩
  refine claim_C7_monotone_in_higher_priority_pressure quietThrottle
    pressedThrottle 1 0 0 (1/61) (by decide) (by decide) (by decide) (by decide)
    (by decide) rfl (by norm_num [quietThrottle]) rfl
    (by norm_num [quietThrottle]) (by decide) (by decide) ?_ ?_ ea eb
  · rw [ht]; decide
  · rw [ht]
    simp only [Finset.sum_range_succ, Finset.sum_range_zero]
    norm_num [hone,
      show getCount quietThrottle.requests 0 0 = 0 from by decide,
      show getCount quietThrottle.accepts 0 0 = 0 from by decide,
      show getCount pressedThrottle.accepts 0 0 = 0 from by decide]

/-- C8: a context-bound priority round-trips (R1), an unbound context
yields the default, and the Throttle method ignores its defaultPriority
argument whenever the context carries a priority. -/
theorem claim_C8_context_priority_round_trip :
    (∀ (ctx : Ctx) (p d : Priority),
      priorityFromContext (withPriority ctx p) d = p) ∧
    (∀ (ctx : Ctx) (d : Priority),
      List.find? (fun en => en.1 == activePriorityKey) ctx = none →
      priorityFromContext ctx d = d) ∧
    (∀ (cls : GoError → Bool) (t : AdaptiveThrottle) (ctx : Ctx)
      (p d d' : Priority) (u t0 t1 : ℚ) (we : Option GoError)
      (fbs : List (Option GoError)),
      throttleGo cls t (withPriority ctx p) d u t0 t1 we fbs =
        throttleGo cls t (withPriority ctx p) d' u t0 t1 we fbs) := by
  have h1 : ∀ (ctx : Ctx) (p d : Priority),
      priorityFromContext (withPriority ctx p) d = p := by
    intro ctx p d
    simp [priorityFromContext, withPriority]
  refine ⟨h1, ?_, ?_⟩
  · intro ctx d h
    simp [priorityFromContext, h]
  · intro cls t ctx p d d' u t0 t1 we fbs
    simp only [throttleGo, h1]

/-- Witness for C8 at concrete priorities. -/
theorem claim_C8_witness :
    priorityFromContext (withPriority [] High) Low = High ∧
    priorityFromContext [] Low = Low :=
  ⟨claim_C8_context_priority_round_trip.1 [] High Low,
   claim_C8_context_priority_round_trip.2.1 [] Low rfl⟩

/-- C3: the fallback is invoked exactly when the throttle locally rejects
(and one is supplied); on a local rejection the work function is not
invoked, requests[p] is incremented once with accepts untouched, and the
result is the first fallback outcome, or the client-side rejection
sentinel when no fallback is supplied; on the admit path the fallback is
never invoked, also when the work function returns an error. -/
theorem claim_C3_fallback_iff_local_rejection
    (cls : GoError → Bool) (t : AdaptiveThrottle) (ctx : Ctx) (dp : Priority)
    (u t0 t1 : ℚ) (we : Option GoError) (fbs : List (Option GoError))
    (out : ThrottleOutcome) (prob : ℚ)
    (hP : rejectionProbability t (priorityFromContext ctx dp).p t0 = some prob)
    (hout : throttleGo cls t ctx dp u t0 t1 we fbs = some out) :
    (out.fallbackInvoked = true ↔ (u < prob ∧ fbs ≠ [])) ∧
    (u < prob →
      out.workInvoked = false ∧
      rejectOp t (priorityFromContext ctx dp).p t0 = some out.state ∧
      out.state.accepts = t.accepts ∧
      out.err = fbs.headD (some DefaultClientSideRejectionError)) ∧
    (¬ u < prob → out.fallbackInvoked = false) := by
  simp only [throttleGo, hP] at hout
  by_cases hu : u < prob
  · rw [if_pos hu] at hout
    cases hr : rejectOp t (priorityFromContext ctx dp).p t0 with
    | none => rw [hr] at hout; cases hout
    | some t2 =>
      rw [hr] at hout
      have hacc : t2.accepts = t.accepts := by
        obtain ⟨hp, hl, ht2⟩ := rejectOp_eq_some.1 hr
        rw [ht2]
      cases fbs with
      | nil =>
        cases hout
        exact ⟨by simp, fun _ => ⟨rfl, by simp [hr], hacc, rfl⟩,
          fun hnu => absurd hu hnu⟩
      | cons fb l =>
        cases hout
        exact ⟨by simp [hu], fun _ => ⟨rfl, by simp [hr], hacc, rfl⟩,
          fun hnu => absurd hu hnu⟩
  · rw [if_neg hu] at hout
    cases we with
    | none =>
      cases ha : acceptOp t (priorityFromContext ctx dp).p t1 with
      | none => rw [ha] at hout; cases hout
      | some t2 =>
        rw [ha] at hout
        cases hout
        exact ⟨by simp [hu], fun h => absurd h hu, fun _ => rfl⟩
    | some e =>
      simp only at hout
      by_cases hmk : errorsIsRejectedMarker e
      · rw [if_pos hmk] at hout
        cases hr : rejectOp t (priorityFromContext ctx dp).p t1 with
        | none => rw [hr] at hout; cases hout
        | some t2 =>
          rw [hr] at hout
          cases hout
          exact ⟨by simp [hu], fun h => absurd h hu, fun _ => rfl⟩
      · rw [if_neg hmk] at hout
        by_cases hcls : cls e
        · rw [if_pos hcls] at hout
          cases hr : rejectOp t (priorityFromContext ctx dp).p t1 with
          | none => rw [hr] at hout; cases hout
          | some t2 =>
            rw [hr] at hout
            cases hout
            exact ⟨by simp [hu], fun h => absurd h hu, fun _ => rfl⟩
        · rw [if_neg hcls] at hout
          cases ha : acceptOp t (priorityFromContext ctx dp).p t1 with
          | none => rw [ha] at hout; cases hout
          | some t2 =>
            rw [ha] at hout
            cases hout
            exact ⟨by simp [hu], fun h => absurd h hu, fun _ => rfl⟩

/-- C9: the generic Throttle[T] helper is behaviourally equivalent to the
Throttle method: with the same state, context, default priority, random
draw, times and a work/fallback pair returning the same error, it performs
the same counter updates and returns the same error (it only adds the
value channel). -/
theorem claim_C9_generic_throttle_equivalent {α : Type} (cls : GoError → Bool)
    (t : AdaptiveThrottle) (ctx : Ctx) (dp : Priority) (u t0 t1 : ℚ)
    (zero v : α) (e : Option GoError) (fbs : List (α × Option GoError)) :
    (throttleGoT cls t ctx dp u t0 t1 zero (v, e) fbs).map forgetValue =
      throttleGo cls t ctx dp u t0 t1 e (fbs.map Prod.snd) := by
  cases hP : rejectionProbability t (priorityFromContext ctx dp).p t0 with
  | none => simp only [throttleGo, throttleGoT, hP]; rfl
  | some prob =>
    simp only [throttleGo, throttleGoT, hP]
    by_cases hu : u < prob
    · rw [if_pos hu, if_pos hu]
      cases hr : rejectOp t (priorityFromContext ctx dp).p t0 with
      | none => simp only [hr]; rfl
      | some t2 =>
        simp only [hr]
        cases fbs with
        | nil => rfl
        | cons fb l => rfl
    · rw [if_neg hu, if_neg hu]
      cases e with
      | none =>
        cases ha : acceptOp t (priorityFromContext ctx dp).p t1 with
        | none => simp only [ha]; rfl
        | some t2 => simp only [ha]; rfl
      | some e' =>
        simp only
        by_cases hmk : errorsIsRejectedMarker e'
        · rw [if_pos hmk, if_pos hmk]
          cases hr : rejectOp t (priorityFromContext ctx dp).p t1 with
          | none => simp only [hr]; rfl
          | some t2 => simp only [hr]; rfl
        · rw [if_neg hmk, if_neg hmk]
          by_cases hcls : cls e'
          · rw [if_pos hcls, if_pos hcls]
            cases hr : rejectOp t (priorityFromContext ctx dp).p t1 with
            | none => simp only [hr]; rfl
            | some t2 => simp only [hr]; rfl
          · rw [if_neg hcls, if_neg hcls]
            cases ha : acceptOp t (priorityFromContext ctx dp).p t1 with
            | none => simp only [ha]; rfl
            | some t2 => simp only [ha]; rfl

/-- C10: the Throttle method performs no range check on the resolved
priority: with N counter slots, an in-range resolved rank never panics,
and an out-of-range resolved rank (for example one bound into the context
by the caller) panics with an index-out-of-range (modelled none) instead
of returning an error. -/
theorem claim_C10_no_range_check_panic (cls : GoError → Bool)
    (t : AdaptiveThrottle) (ctx : Ctx) (dp : Priority) (u t0 t1 : ℚ)
    (we : Option GoError) (fbs : List (Option GoError)) (N : ℕ)
    (hreq : t.requests.length = N) (hacc : t.accepts.length = N) :
    ((0 ≤ (priorityFromContext ctx dp).p ∧
        (priorityFromContext ctx dp).p < (N:ℤ)) →
      ∃ out, throttleGo cls t ctx dp u t0 t1 we fbs = some out) ∧
    (((priorityFromContext ctx dp).p < 0 ∨
        (N:ℤ) ≤ (priorityFromContext ctx dp).p) →
      throttleGo cls t ctx dp u t0 t1 we fbs = none) := by
  constructor
  · rintro ⟨hp0, hpN⟩
    have h1 : (priorityFromContext ctx dp).p.toNat < t.requests.length := by
      omega
    have h2 : (priorityFromContext ctx dp).p.toNat < t.accepts.length := by
      omega
    obtain ⟨prob, hP⟩ :
        ∃ q, rejectionProbability t (priorityFromContext ctx dp).p t0 = some q :=
      ⟨_, rejectionProbability_closed t _ t0 hp0 h1 h2⟩
    simp only [throttleGo, hP]
    by_cases hu : u < prob
    · rw [if_pos hu, rejectOp_eq_some.2 ⟨hp0, h1, rfl⟩]
      cases fbs with
      | nil => exact ⟨_, rfl⟩
      | cons fb l => exact ⟨_, rfl⟩
    · rw [if_neg hu]
      cases we with
      | none => rw [acceptOp_eq_some.2 ⟨hp0, h1, h2, rfl⟩]; exact ⟨_, rfl⟩
      | some e =>
        simp only
        by_cases hmk : errorsIsRejectedMarker e
        · rw [if_pos hmk, rejectOp_eq_some.2 ⟨hp0, h1, rfl⟩]; exact ⟨_, rfl⟩
        · rw [if_neg hmk]
          by_cases hcls : cls e
          · rw [if_pos hcls, rejectOp_eq_some.2 ⟨hp0, h1, rfl⟩]; exact ⟨_, rfl⟩
          · rw [if_neg hcls, acceptOp_eq_some.2 ⟨hp0, h1, h2, rfl⟩]
            exact ⟨_, rfl⟩
  · intro hout
    have hnone : rejectionProbability t (priorityFromContext ctx dp).p t0 = none :=
      rejectionProbability_none_of_out_of_range t0 (by omega)
    simp only [throttleGo, hnone]

/-- Witness for C10 on a fresh 4-slot throttle: a context-bound rank 2 is
served, a context-bound rank 10 panics. -/
theorem claim_C10_witness :
    (∃ out, throttleGo defaultRejectedError (newAdaptiveThrottle 4 2 1 60 0)
      (withPriority [] ⟨2⟩) High (1/2) 0 0 none [] = some out) ∧
    throttleGo defaultRejectedError (newAdaptiveThrottle 4 2 1 60 0)
      (withPriority [] ⟨10⟩) High (1/2) 0 0 none [] = none :=
  ⟨(claim_C10_no_range_check_panic defaultRejectedError _ _ High (1/2) 0 0
      none [] 4 (by decide) (by decide)).1 (by decide),
   (claim_C10_no_range_check_panic defaultRejectedError _ _ High (1/2) 0 0
      none [] 4 (by decide) (by decide)).2 (by decide)⟩

/-- C6: in every state reachable by a sequence of Throttle calls from a
freshly constructed throttle, accepts[p].get(t) ≤ requests[p].get(t) for
every priority slot p and time t. -/
theorem claim_C6_accepts_le_requests (cls : GoError → Bool)
    (priorities : ℕ) (k minRate d now : ℚ) (calls : List CallDesc)
    (t' : AdaptiveThrottle)
    (h : runCalls cls (newAdaptiveThrottle priorities k minRate d now) calls =
      some t') :
    ∀ (i : ℕ) (tm : ℚ), getCount t'.accepts i tm ≤ getCount t'.requests i tm := by
  obtain ⟨hlen, hdom⟩ := throttleInv_runCalls calls _ t'
    (throttleInv_new priorities k minRate d now) h
  intro i tm
  by_cases hi : i < t'.accepts.length
  · have hi2 : i < t'.requests.length := by omega
    rw [getCount_of_getElem? (List.getElem?_eq_getElem hi),
        getCount_of_getElem? (List.getElem?_eq_getElem hi2)]
    exact counterGet_le_of_dominates (hdom i hi hi2) tm
  · have hnone : t'.accepts[i]? = none := List.getElem?_eq_none (by omega)
    simp [getCount, hnone]

/-- Witness for C3: a fully distressed throttle rejects locally and runs
the fallback exactly once, with the work function not invoked. -/
theorem claim_C3_witness :
    rejectionProbability failingThrottle 0 0 = some 1 ∧
    throttleGo defaultRejectedError failingThrottle [] High (1/2) 0 0 none
      [some (.base 3)] =
      some ⟨failingAfterReject, some (.base 3), false, true⟩ ∧
    ((⟨failingAfterReject, some (.base 3), false, true⟩ :
        ThrottleOutcome).fallbackInvoked = true ↔
      ((1/2:ℚ) < 1 ∧ ([some (GoError.base 3)] : List (Option GoError)) ≠ [])) := by
  have hP0 : rejectionProbability failingThrottle 0 0 = some 1 := by
    rw [rejectionProbability_closed failingThrottle 0 0 (by decide) (by decide)
      (by decide)]
    have ht : (0:ℤ).toNat = 0 := rfl
    rw [ht]
    simp only [Finset.sum_range_zero]
    norm_num [show getCount failingThrottle.requests 0 0 = 1 from by
        norm_num [getCount, failingThrottle, oneCtr, counterGet],
      show getCount failingThrottle.accepts 0 0 = 0 from by decide,
      show failingThrottle.k = 1 from rfl,
      show failingThrottle.minPerWindow = 0 from rfl, clamp]
  have hrej : rejectOp failingThrottle 0 0 = some failingAfterReject := by
    norm_num [rejectOp, listModifyZ, listGetZ, failingThrottle,
      failingAfterReject, counterAdd, oneCtr, twoCtr]
  have hout : throttleGo defaultRejectedError failingThrottle [] High (1/2) 0 0
      none [some (.base 3)] =
      some ⟨failingAfterReject, some (.base 3), false, true⟩ := by
    simp only [throttleGo, show (priorityFromContext [] High).p = 0 from rfl,
      hP0]
    rw [if_pos (by norm_num : (1/2:ℚ) < 1), hrej]
  exact ⟨hP0, hout,
    (claim_C3_fallback_iff_local_rejection defaultRejectedError failingThrottle
      [] High (1/2) 0 0 none [some (.base 3)] _ 1 hP0 hout).1⟩


/-- Witness for C6: after one accepted and one rejected call at rank 0,
accepts stays below requests. -/
theorem claim_C6_witness :
    runCalls defaultRejectedError (newAdaptiveThrottle 4 2 1 60 0)
      [⟨[], High, 1/2, 0, 0, none, []⟩,
       ⟨[], High, 1/2, 0, 0, some (.unavailableFault 1), []⟩] = some c6State ∧
    getCount c6State.accepts 0 0 ≤ getCount c6State.requests 0 0 := by
  have h0 : (priorityFromContext [] High).p = 0 := rfl
  have hP1 : rejectionProbability (newAdaptiveThrottle 4 2 1 60 0) 0 0 =
      some 0 := by
    norm_num [rejectionProbability, newAdaptiveThrottle, newWindowedCounter,
      listGetZ, higherDelta, List.replicate, counterGet, clamp]
  have hacc1 : acceptOp (newAdaptiveThrottle 4 2 1 60 0) 0 0 = some c2State := by
    norm_num [acceptOp, listModifyZ, listGetZ, newAdaptiveThrottle,
      newWindowedCounter, List.replicate, counterAdd, c2State, oneCtr, freshCtr]
  have s1 : throttleGo defaultRejectedError (newAdaptiveThrottle 4 2 1 60 0)
      [] High (1/2) 0 0 none [] = some ⟨c2State, none, true, false⟩ := by
    simp only [throttleGo, h0, hP1]
    rw [if_neg (by norm_num : ¬ (1/2:ℚ) < 0), hacc1]
  have hone : getCount c2State.requests 0 0 = 1 := by
    norm_num [getCount, c2State, oneCtr, counterGet]
  have hone2 : getCount c2State.accepts 0 0 = 1 := by
    norm_num [getCount, c2State, oneCtr, counterGet]
  have hP2 : rejectionProbability c2State 0 0 = some 0 := by
    rw [rejectionProbability_closed c2State 0 0 (by decide) (by decide)
      (by decide)]
    have ht : (0:ℤ).toNat = 0 := rfl
    rw [ht]
    simp only [Finset.sum_range_zero]
    norm_num [hone, hone2, show c2State.k = 2 from rfl,
      show c2State.minPerWindow = 60 from rfl, clamp]
  have hrej2 : rejectOp c2State 0 0 = some c6State := by
    norm_num [rejectOp, listModifyZ, listGetZ, c2State, c6State, counterAdd,
      oneCtr, twoCtr]
  have s2 : throttleGo defaultRejectedError c2State [] High (1/2) 0 0
      (some (.unavailableFault 1)) [] =
      some ⟨c6State, some (.unavailableFault 1), true, false⟩ := by
    simp only [throttleGo, h0, hP2]
    rw [if_neg (by norm_num : ¬ (1/2:ℚ) < 0)]
    norm_num [errorsIsRejectedMarker, defaultRejectedError, isUnavailableFault,
      hrej2]
  have hrun : runCalls defaultRejectedError (newAdaptiveThrottle 4 2 1 60 0)
      [⟨[], High, 1/2, 0, 0, none, []⟩,
       ⟨[], High, 1/2, 0, 0, some (.unavailableFault 1), []⟩] = some c6State := by
    simp only [runCalls, s1, s2]
  exact ⟨hrun, claim_C6_accepts_le_requests defaultRejectedError 4 2 1 60 0 _
    c6State hrun 0 0⟩


/-- C2 (code-bug evidence): a work function returning
RejectedError(base 7), with base 7 a plain benign error, is classified by
the default predicate rather than unwrapped — the call records an accept
(accepts[0] becomes 1, not 0) and returns the wrapper, not the inner
error.  errors.Is(err, errRejected{}) is false for every
errRejected{inner} with non-nil inner, so the unwrap case never fires. -/
theorem claim_C2_rejected_wrapper_misclassified :
    throttleGo defaultRejectedError (newAdaptiveThrottle 4 2 1 60 0) [] High
      (1/2) 0 0 (some (.rejected (.base 7))) [] =
      some ⟨c2State, some (.rejected (.base 7)), true, false⟩ ∧
    getCount c2State.accepts 0 0 = 1 ∧
    errorsIsRejectedMarker (.rejected (.base 7)) = false := by
  have h0 : (priorityFromContext [] High).p = 0 := rfl
  have hP : rejectionProbability (newAdaptiveThrottle 4 2 1 60 0) 0 0 =
      some 0 := by
    norm_num [rejectionProbability, newAdaptiveThrottle, newWindowedCounter,
      listGetZ, higherDelta, List.replicate, counterGet, clamp]
  have hacc : acceptOp (newAdaptiveThrottle 4 2 1 60 0) 0 0 = some c2State := by
    norm_num [acceptOp, listModifyZ, listGetZ, newAdaptiveThrottle,
      newWindowedCounter, List.replicate, counterAdd, c2State, oneCtr, freshCtr]
  refine ⟨?_, ?_, rfl⟩
  · simp only [throttleGo, h0, hP]
    rw [if_neg (by norm_num : ¬ (1/2:ℚ) < 0)]
    norm_num [errorsIsRejectedMarker, defaultRejectedError, isUnavailableFault,
      isResourceExhaustedFault, hacc]
  · norm_num [getCount, c2State, oneCtr, counterGet]

/-- C4 (code-bug evidence): the Throttle method never consults the range
validator; with a context-bound rank 10 on a 4-slot throttle the call
panics with an index-out-of-range (none) instead of returning the
validation failure that the error policy would produce for rank 10. -/
theorem claim_C4_no_validation_in_throttle :
    throttleGo defaultRejectedError (newAdaptiveThrottle 4 2 1 60 0)
      (withPriority [] ⟨10⟩) High (1/2) 0 0 none [] = none ∧
    onInvalidPriorityError ⟨10⟩ (newPriorityRange Low) = (⟨10⟩, true) := by
  constructor
  · have h10 : (priorityFromContext (withPriority [] ⟨10⟩) High).p = 10 := rfl
    have hnone : rejectionProbability (newAdaptiveThrottle 4 2 1 60 0)
        (10:ℤ) 0 = none :=
      rejectionProbability_none_of_out_of_range 0 (by decide)
    simp only [throttleGo, h10, hnone]
  · decide

/-- C5 (code-bug evidence): the three validator policies do not agree with
the claimed valid set 0 ≤ p ≤ lowest: with lowest = Low (3), the adjust
policy returns the negative priority −1 unchanged instead of the lowest,
the panic policy panics on the in-range priority Low itself, and the error
policy accepts the out-of-range −1 without an error. -/
theorem claim_C5_validator_policies_diverge :
    onInvalidPriorityAdjust ⟨-1⟩ (newPriorityRange Low) = ⟨-1⟩ ∧
    onInvalidPriorityPanic Low (newPriorityRange Low) = none ∧
    onInvalidPriorityError ⟨-1⟩ (newPriorityRange Low) = (⟨-1⟩, false) := by
  refine ⟨?_, ?_, ?_⟩ <;> decide

end Bulwark
